import Mathlib

/-!
Verification of the COVID-19 data-preparation pipeline (data_prep.py / script.py).

The pipeline is embedded shallowly: a pandas float64 cell is modelled by `RtVal`
(rational value, NaN, +inf, -inf), column-wise operations become functions on
lists of rationals, and the operation that can raise an IndexError returns an
`Option`.
-/

namespace Covid

/-- Values a pandas float64 entry can take in this pipeline: an ordinary
(rational) number, NaN, positive infinity or negative infinity. -/
inductive RtVal
  | nan
  | inf
  | ninf
  | val (q : ℚ)
  deriving DecidableEq, Inhabited

/-- numpy/pandas float division: `a / b` is the rational quotient when `b ≠ 0`;
for `b = 0` it is NaN when `a = 0`, +inf when `a > 0` and -inf when `a < 0`. -/
def npDiv (a b : ℚ) : RtVal :=
  if b = 0 then
    if a = 0 then RtVal.nan
    else if 0 < a then RtVal.inf
    else RtVal.ninf
  else RtVal.val (a / b)

/-- One cell of pandas `fillna(0)`: NaN becomes 0, all other values
(including infinities) are kept. -/
def fillZero (v : RtVal) : RtVal :=
  if v = RtVal.nan then RtVal.val 0 else v

/-- pandas `Series.fillna(0)` over a whole column. -/
def fillna0 (l : List RtVal) : List RtVal := l.map fillZero

/-- data_prep.py line 81: `df['Rt'] = df['New_cases'] / df['New_cases'].shift(1)`.
Position 0 divides by the NaN that `shift(1)` introduces, hence is NaN;
position `i > 0` is the float division of `new_cases[i]` by `new_cases[i-1]`. -/
def rtStep1 (ns : List ℚ) : List RtVal :=
  (List.range ns.length).map fun i =>
    if i = 0 then RtVal.nan else npDiv (ns.getD i 0) (ns.getD (i - 1) 0)

/-- data_prep.py line 86:
`df.loc[df['Rt'] == np.inf, 'Rt'] = df['Rt'].shift(-1)`.
The shifted column is computed from the pre-assignment values, so every cell
equal to +inf is replaced simultaneously by the next cell's old value
(NaN beyond the end, as `shift(-1)` fills the last slot with NaN). -/
def rtStep2 (l : List RtVal) : List RtVal :=
  (List.range l.length).map fun i =>
    if l.getD i RtVal.nan = RtVal.inf then l.getD (i + 1) RtVal.nan
    else l.getD i RtVal.nan

/-- data_prep.py lines 88-89: `df['Rt'].iloc[0] = df['Rt'].iloc[1]`.
Reading `iloc[1]` on a column of fewer than two entries raises an
IndexError, modelled by `none`. -/
def setFirstFromSecond (l : List RtVal) : Option (List RtVal) :=
  match l with
  | _ :: b :: t => some (b :: b :: t)
  | _ => none

/-- data_prep.py lines 72-94, `DataProcessor.calculate_rt` applied to one
group's chronologically ordered `New_cases` column. `none` models an
IndexError: `iloc[0]` on an empty group, or `iloc[1]` on a single-row group
whose first `New_cases` entry is nonzero. -/
def calculate_rt (ns : List ℚ) : Option (List RtVal) :=
  if ns = [] then none
  else if ns.headD 0 ≠ 0 then
    (setFirstFromSecond (rtStep2 (rtStep1 ns))).map fillna0
  else some (fillna0 (rtStep2 (rtStep1 ns)))

/-- data_prep.py lines 96-102, `DataProcessor.calculate_deaths_per_cases`
on one record: the float division of cumulative deaths by cumulative cases,
followed by `fillna(0)` (which fills NaN only, not infinities). -/
def calculate_deaths_per_cases (cumulative_deaths cumulative_cases : ℚ) : RtVal :=
  fillZero (npDiv cumulative_deaths cumulative_cases)

/-- A pipeline value that is either NaN or a non-negative rational. -/
def okVal (v : RtVal) : Prop :=
  v = RtVal.nan ∨ ∃ q : ℚ, v = RtVal.val q ∧ 0 ≤ q


/-- One row of a table produced by `calc_stats` (country-level or
region-level): entity name, report date, the four count fields, the joined
population, and the two derived statistics. -/
structure StatRecord where
  entity : String
  date : ℕ
  new_cases : ℚ
  cumulative_cases : ℚ
  new_deaths : ℚ
  cumulative_deaths : ℚ
  population : ℚ
  rt : RtVal
  deaths_per_cases : RtVal
  deriving DecidableEq, Inhabited

/-- data_prep.py lines 129-130 on one row: the four count fields are divided
by the row's population and scaled by `POPULATION_NORMALIZER = 1000000`;
all other fields are kept. Rational division stands in for float division;
the population of every joined row is a positive number. -/
def normalizeRecord (r : StatRecord) : StatRecord :=
  { r with
    new_cases := r.new_cases / r.population * 1000000
    cumulative_cases := r.cumulative_cases / r.population * 1000000
    new_deaths := r.new_deaths / r.population * 1000000
    cumulative_deaths := r.cumulative_deaths / r.population * 1000000 }

/-- data_prep.py lines 121-132, `DataProcessor.normalize`: the input table is
copied (`df.copy()`) and the copy's four count columns are rescaled row by
row, so the result is a new table and the input is left as it was. -/
def normalize (t : List StatRecord) : List StatRecord :=
  t.map normalizeRecord

/-- One row of the enriched country-level table fed to
`create_regional_df` (the fields the aggregation reads). -/
structure CountryRecord where
  country : String
  who_region : String
  date : ℕ
  new_cases : ℚ
  cumulative_cases : ℚ
  new_deaths : ℚ
  cumulative_deaths : ℚ
  population : ℚ
  deriving DecidableEq, Inhabited

/-- One row of the region-level table: the grouping key (region, date) and
the five summed fields. -/
structure RegionRecord where
  who_region : String
  date : ℕ
  new_cases : ℚ
  cumulative_cases : ℚ
  new_deaths : ℚ
  cumulative_deaths : ℚ
  population : ℚ
  deriving DecidableEq, Inhabited

/-- The member-country rows of one (region, date) group. -/
def memberRows (t : List CountryRecord) (r : String) (d : ℕ) :
    List CountryRecord :=
  t.filter fun x => x.who_region == r && x.date == d

/-- The sum of one field over the member rows of a (region, date) group. -/
def groupSum (t : List CountryRecord) (r : String) (d : ℕ)
    (f : CountryRecord → ℚ) : ℚ :=
  ((memberRows t r d).map f).sum

/-- The distinct (region, date) keys occurring in the table. -/
def regionKeys (t : List CountryRecord) : List (String × ℕ) :=
  (t.map fun x => (x.who_region, x.date)).dedup

/-- data_prep.py lines 134-143, `DataProcessor.create_regional_df`:
group the country table by (WHO_region, Date_reported) and sum New_cases,
Cumulative_cases, New_deaths, Cumulative_deaths and population over each
group, producing one row per key. -/
def create_regional_df (t : List CountryRecord) : List RegionRecord :=
  (regionKeys t).map fun k =>
    { who_region := k.1
      date := k.2
      new_cases := groupSum t k.1 k.2 (fun x => x.new_cases)
      cumulative_cases := groupSum t k.1 k.2 (fun x => x.cumulative_cases)
      new_deaths := groupSum t k.1 k.2 (fun x => x.new_deaths)
      cumulative_deaths := groupSum t k.1 k.2 (fun x => x.cumulative_deaths)
      population := groupSum t k.1 k.2 (fun x => x.population) }

/-- Columns of the raw WHO daily-cases table. -/
def raw_covid_cols : List String :=
  ["Date_reported", "Country_code", "Country", "WHO_region",
   "New_cases", "Cumulative_cases", "New_deaths", "Cumulative_deaths"]

/-- Column effect of `pd.merge(left, right, ...)` when left and right share
no column name (the join keys here have distinct names on both sides):
the right table's selected columns are appended. -/
def mergeCols (left right : List String) : List String := left ++ right

/-- Column effect of `df.drop(columns=dropped)`. -/
def dropCols (cols dropped : List String) : List String :=
  cols.filter fun c => !(dropped.contains c)

/-- data_prep.py lines 48-70, `preprocess_data`'s column pipeline: merge in
the selected crosswalk columns alpha-2 and alpha-3, merge in the selected
population columns, then drop the three join-helper columns. -/
def preprocess_cols : List String :=
  dropCols
    (mergeCols (mergeCols raw_covid_cols ["alpha-2", "alpha-3"])
      ["Country Code", "population"])
    ["alpha-2", "alpha-3", "Country Code"]

/-- Column effect of `calc_stats` (lines 104-119): `calculate_deaths_per_cases`
adds the deaths_per_cases column, then the Rt column is added; all existing
columns are kept. -/
def calcStatsCols (cols : List String) : List String :=
  cols ++ ["deaths_per_cases", "Rt"]

/-- Value columns of the region-level table built by `create_regional_df`
(its index levels are WHO_region and Date_reported). -/
def regional_value_cols : List String :=
  ["New_cases", "Cumulative_cases", "New_deaths", "Cumulative_deaths",
   "population"]

/-- Column effect of `df_countries._append(df_regions)`: the union of the two
column sets, keeping left-table order and appending the right table's new
columns. -/
def appendUnion (a b : List String) : List String :=
  a ++ b.filter fun c => !(a.contains c)

/-- data_prep.py lines 146-158, `append_dataframes`' column pipeline: the
country table is indexed by Country and Date_reported (removing them from
its columns), the region table's Date_reported index level is reset into a
leading column, the two are appended (column union), and resetting the
appended mixed-level index yields one leading entity column, renamed
Country_region. These are the columns of every row of `df_absolute`. -/
def df_absolute_cols : List String :=
  "Country_region" ::
    appendUnion
      (dropCols (calcStatsCols preprocess_cols) ["Country", "Date_reported"])
      ("Date_reported" :: calcStatsCols regional_value_cols)

/-- The fixed output column set named by the specification (section 4.6):
entity name, date, the four count fields, deaths_per_cases and rt. Stated
from the specification's words, for comparison with `df_absolute_cols`. -/
def spec_output_cols : List String :=
  ["Country_region", "Date_reported", "New_cases", "Cumulative_cases",
   "New_deaths", "Cumulative_deaths", "deaths_per_cases", "Rt"]

/-- The reference/join helper columns that the specification says no output
row may contain. -/
def helper_cols : List String :=
  ["alpha-2", "alpha-3", "Country Code",
   "2019 [YR2019]", "2020 [YR2020]", "2021 [YR2021]"]

section RtLemmas

lemma getD_range_map {α : Type} (f : ℕ → α) (n i : ℕ) (d : α) (h : i < n) :
    ((List.range n).map f).getD i d = f i := by
  rw [List.getD_eq_getElem _ _ (by simpa using h)]
  simp

lemma rtStep1_length (ns : List ℚ) : (rtStep1 ns).length = ns.length := by
  simp [rtStep1]

lemma rtStep2_length (l : List RtVal) : (rtStep2 l).length = l.length := by
  simp [rtStep2]

lemma fillna0_length (l : List RtVal) : (fillna0 l).length = l.length := by
  simp [fillna0]

lemma rtStep1_getD_zero (ns : List ℚ) (h : 0 < ns.length) :
    (rtStep1 ns).getD 0 RtVal.nan = RtVal.nan := by
  unfold rtStep1
  rw [getD_range_map _ _ _ _ h]
  simp

lemma rtStep1_getD_succ (ns : List ℚ) (i : ℕ) (h : i + 1 < ns.length) :
    (rtStep1 ns).getD (i + 1) RtVal.nan = npDiv (ns.getD (i + 1) 0) (ns.getD i 0) := by
  unfold rtStep1
  rw [getD_range_map _ _ _ _ h]
  simp

lemma rtStep1_getD_default (ns : List ℚ) (i : ℕ) (h : ns.length ≤ i) :
    (rtStep1 ns).getD i RtVal.nan = RtVal.nan :=
  List.getD_eq_default _ _ (by rw [rtStep1_length]; exact h)

lemma rtStep2_getD (l : List RtVal) (i : ℕ) (h : i < l.length) :
    (rtStep2 l).getD i RtVal.nan =
      if l.getD i RtVal.nan = RtVal.inf then l.getD (i + 1) RtVal.nan
      else l.getD i RtVal.nan := by
  unfold rtStep2
  rw [getD_range_map _ _ _ _ h]

lemma fillna0_getD (l : List RtVal) (i : ℕ) :
    (fillna0 l).getD i (RtVal.val 0) = fillZero (l.getD i RtVal.nan) := by
  have h : (RtVal.val 0) = fillZero RtVal.nan := rfl
  rw [h, fillna0, List.getD_map]

lemma npDiv_eq_inf (a b : ℚ) : npDiv a b = RtVal.inf ↔ b = 0 ∧ 0 < a := by
  unfold npDiv
  split_ifs with hb ha hpos <;> simp_all

lemma npDiv_val_nonneg (a b : ℚ) (ha : 0 ≤ a) (hb : 0 < b) :
    npDiv a b = RtVal.val (a / b) ∧ 0 ≤ a / b := by
  unfold npDiv
  rw [if_neg hb.ne']
  exact ⟨rfl, div_nonneg ha hb.le⟩

lemma nonneg_getD (ns : List ℚ) (hpos : ∀ x ∈ ns, 0 ≤ x) (i : ℕ) :
    0 ≤ ns.getD i 0 := by
  by_cases hi : i < ns.length
  · rw [List.getD_eq_getElem _ _ hi]
    exact hpos _ (List.getElem_mem hi)
  · rw [List.getD_eq_default _ _ (le_of_not_lt hi)]

lemma npDiv_ok (a b : ℚ) (ha : 0 ≤ a) (hb : 0 ≤ b)
    (hni : npDiv a b ≠ RtVal.inf) : okVal (npDiv a b) := by
  by_cases hb0 : b = 0
  · by_cases ha0 : a = 0
    · left
      simp [npDiv, hb0, ha0]
    · exact absurd ((npDiv_eq_inf a b).mpr ⟨hb0, lt_of_le_of_ne ha (Ne.symm ha0)⟩) hni
  · right
    obtain ⟨heq, hq⟩ := npDiv_val_nonneg a b ha (lt_of_le_of_ne hb (Ne.symm hb0))
    exact ⟨_, heq, hq⟩

lemma fillZero_ok (v : RtVal) (h : okVal v) :
    ∃ q : ℚ, fillZero v = RtVal.val q ∧ 0 ≤ q := by
  rcases h with h | ⟨q, rfl, hq⟩
  · exact ⟨0, by simp [h, fillZero], le_refl 0⟩
  · exact ⟨q, by simp [fillZero], hq⟩

lemma step2_ok (ns : List ℚ) (hpos : ∀ x ∈ ns, 0 ≤ x) (i : ℕ) :
    okVal ((rtStep2 (rtStep1 ns)).getD i RtVal.nan) := by
  by_cases hi : i < ns.length
  · rw [rtStep2_getD _ _ (by rw [rtStep1_length]; exact hi)]
    by_cases hinf : (rtStep1 ns).getD i RtVal.nan = RtVal.inf
    · rw [if_pos hinf]
      have hipos : 0 < ns.getD i 0 := by
        cases i with
        | zero =>
          rw [rtStep1_getD_zero ns hi] at hinf
          exact absurd hinf (by simp)
        | succ j =>
          rw [rtStep1_getD_succ ns j hi] at hinf
          exact ((npDiv_eq_inf _ _).mp hinf).2
      by_cases hi1 : i + 1 < ns.length
      · rw [rtStep1_getD_succ ns i hi1]
        obtain ⟨heq, hq⟩ :=
          npDiv_val_nonneg (ns.getD (i + 1) 0) (ns.getD i 0)
            (nonneg_getD ns hpos (i + 1)) hipos
        exact Or.inr ⟨_, heq, hq⟩
      · rw [rtStep1_getD_default ns (i + 1) (le_of_not_lt hi1)]
        exact Or.inl rfl
    · rw [if_neg hinf]
      cases i with
      | zero =>
        rw [rtStep1_getD_zero ns hi]
        exact Or.inl rfl
      | succ j =>
        rw [rtStep1_getD_succ ns j hi] at hinf ⊢
        exact npDiv_ok _ _ (nonneg_getD ns hpos _) (nonneg_getD ns hpos _) hinf
  · rw [List.getD_eq_default _ _
      (by rw [rtStep2_length, rtStep1_length]; exact le_of_not_lt hi)]
    exact Or.inl rfl

lemma mem_step2 (ns : List ℚ) (w : RtVal) (hw : w ∈ rtStep2 (rtStep1 ns)) :
    ∃ i : ℕ, w = (rtStep2 (rtStep1 ns)).getD i RtVal.nan := by
  obtain ⟨i, hi, hwi⟩ := List.mem_iff_getElem.mp hw
  exact ⟨i, by rw [List.getD_eq_getElem _ _ hi, hwi]⟩

lemma setFirstFromSecond_some (l l' : List RtVal)
    (h : setFirstFromSecond l = some l') :
    ∃ a b t, l = a :: b :: t ∧ l' = b :: b :: t := by
  match l with
  | [] => simp [setFirstFromSecond] at h
  | [a] => simp [setFirstFromSecond] at h
  | a :: b :: t =>
    refine ⟨a, b, t, rfl, ?_⟩
    simpa [setFirstFromSecond] using h.symm

lemma calculate_rt_some (ns : List ℚ) (rt : List RtVal)
    (h : calculate_rt ns = some rt) :
    ns ≠ [] ∧
      ((ns.headD 0 = 0 ∧ rt = fillna0 (rtStep2 (rtStep1 ns))) ∨
       (ns.headD 0 ≠ 0 ∧ ∃ a b t, rtStep2 (rtStep1 ns) = a :: b :: t ∧
          rt = fillna0 (b :: b :: t))) := by
  unfold calculate_rt at h
  by_cases h1 : ns = []
  · rw [if_pos h1] at h
    exact absurd h (by simp)
  · rw [if_neg h1] at h
    refine ⟨h1, ?_⟩
    by_cases h2 : ns.headD 0 ≠ 0
    · rw [if_pos h2] at h
      refine Or.inr ⟨h2, ?_⟩
      cases hx : setFirstFromSecond (rtStep2 (rtStep1 ns)) with
      | none =>
        rw [hx] at h
        exact absurd h (by simp)
      | some l =>
        rw [hx] at h
        simp only [Option.map_some', Option.some.injEq] at h
        obtain ⟨a, b, t, hl, hl'⟩ := setFirstFromSecond_some _ _ hx
        exact ⟨a, b, t, hl, by rw [← h, hl']⟩
    · rw [if_neg h2] at h
      refine Or.inl ⟨not_not.mp h2, ?_⟩
      simpa using h.symm

lemma headD_eq_getD_zero (ns : List ℚ) (h : ns ≠ []) :
    ns.getD 0 0 = ns.headD 0 := by
  cases ns with
  | nil => exact absurd rfl h
  | cons a l => rfl

end RtLemmas

lemma setFirstFromSecond_isSome (l : List RtVal) (h : 2 ≤ l.length) :
    (setFirstFromSecond l).isSome = true := by
  match l with
  | [] => simp at h
  | [a] => simp at h
  | a :: b :: t => rfl

/-- C1: for the new_cases input sequence [0, 100, 50] processed as one
entity's chronologically ordered group, calculate_rt produces the rt
sequence [0, 1/2, 1/2]: rt[0] = 0 (first new_cases is 0, so the
set-from-next branch is skipped and the general null-fill applies), and
rt[1] = rt[2] = 1/2 (the infinite ratio 100/0 at index 1 is replaced by
index 2's computed ratio 50/100). -/
theorem rt_example_sequence :
    calculate_rt [0, 100, 50] =
      some [RtVal.val 0, RtVal.val (1 / 2), RtVal.val (1 / 2)] := by
  with_unfolding_all decide

/-- C4 counterexample: at cumulative_deaths = 1 and cumulative_cases = 0,
the code's deaths_per_cases is +infinity (1/0 is +inf and fillna(0) fills
NaN only), not 0 as the claim states for every record with
cumulative_cases = 0. -/
theorem deaths_per_cases_inf_counterexample :
    calculate_deaths_per_cases 1 0 = RtVal.inf ∧
      calculate_deaths_per_cases 1 0 ≠ RtVal.val 0 := by
  decide

/-- C4 amended: deaths_per_cases equals the float quotient
cumulative_deaths / cumulative_cases; when cumulative_cases = 0 the result
is 0 only if cumulative_deaths is also 0 (the NaN from 0/0 is null-filled),
while a nonzero cumulative_deaths over 0 cumulative_cases yields +infinity;
for non-negative inputs the result is never null and is +infinity or a
non-negative rational. -/
theorem deaths_per_cases_amended (cd cc : ℚ) (hcd : 0 ≤ cd) (hcc : 0 ≤ cc) :
    (cc ≠ 0 → calculate_deaths_per_cases cd cc = RtVal.val (cd / cc)) ∧
    (cc = 0 → cd = 0 → calculate_deaths_per_cases cd cc = RtVal.val 0) ∧
    (cc = 0 → 0 < cd → calculate_deaths_per_cases cd cc = RtVal.inf) ∧
    calculate_deaths_per_cases cd cc ≠ RtVal.nan ∧
    (calculate_deaths_per_cases cd cc = RtVal.inf ∨
      ∃ q : ℚ, calculate_deaths_per_cases cd cc = RtVal.val q ∧ 0 ≤ q) := by
  unfold calculate_deaths_per_cases
  refine ⟨?_, ?_, ?_, ?_, ?_⟩
  · intro h
    rw [(npDiv_val_nonneg cd cc hcd (lt_of_le_of_ne hcc (Ne.symm h))).1]
    simp [fillZero]
  · intro h1 h2
    simp [npDiv, fillZero, h1, h2]
  · intro h1 h2
    rw [(npDiv_eq_inf cd cc).mpr ⟨h1, h2⟩]
    simp [fillZero]
  · by_cases h : npDiv cd cc = RtVal.nan
    · simp [fillZero, h]
    · simp [fillZero, h]
  · by_cases hcc0 : cc = 0
    · by_cases hcd0 : cd = 0
      · right
        exact ⟨0, by simp [npDiv, fillZero, hcc0, hcd0], le_refl 0⟩
      · left
        rw [(npDiv_eq_inf cd cc).mpr
          ⟨hcc0, lt_of_le_of_ne hcd (Ne.symm hcd0)⟩]
        simp [fillZero]
    · right
      obtain ⟨heq, hq⟩ :=
        npDiv_val_nonneg cd cc hcd (lt_of_le_of_ne hcc (Ne.symm hcc0))
      exact ⟨cd / cc, by rw [heq]; simp [fillZero], hq⟩

/-- C4 witness: the amended statement instantiated at
cumulative_deaths = 2 and cumulative_cases = 4. -/
theorem deaths_per_cases_amended_witness :
    ((4 : ℚ) ≠ 0 → calculate_deaths_per_cases 2 4 = RtVal.val (2 / 4)) ∧
    ((4 : ℚ) = 0 → (2 : ℚ) = 0 → calculate_deaths_per_cases 2 4 = RtVal.val 0) ∧
    ((4 : ℚ) = 0 → (0 : ℚ) < 2 → calculate_deaths_per_cases 2 4 = RtVal.inf) ∧
    calculate_deaths_per_cases 2 4 ≠ RtVal.nan ∧
    (calculate_deaths_per_cases 2 4 = RtVal.inf ∨
      ∃ q : ℚ, calculate_deaths_per_cases 2 4 = RtVal.val q ∧ 0 ≤ q) :=
  deaths_per_cases_amended 2 4 (by norm_num) (by norm_num)

/-- C9 counterexample: the combined output table's rows carry a population
column, which is not in the specification's fixed output column set, so the
output columns are not exactly that fixed set. -/
theorem output_columns_counterexample :
    "population" ∈ df_absolute_cols ∧ "population" ∉ spec_output_cols := by
  decide

/-- C9 amended: every row of the combined output table carries the
specification's fixed columns plus the carried-through population,
Country_code and WHO_region columns; no row carries a reference/join helper
column (alpha-2, alpha-3, Country Code, or a raw population-year column). -/
theorem output_columns_amended :
    df_absolute_cols =
      ["Country_region", "Country_code", "WHO_region", "New_cases",
       "Cumulative_cases", "New_deaths", "Cumulative_deaths", "population",
       "deaths_per_cases", "Rt", "Date_reported"] ∧
    ∀ c ∈ helper_cols, c ∉ df_absolute_cols := by
  decide

/-- C10: calculate_rt is not total over non-empty groups: on a single-record
group whose new_cases value is nonzero the first-record assignment reads
position 1, which does not exist, so the computation fails
(index-out-of-bounds) instead of returning a sequence; it succeeds on every
group with at least two rows or whose first new_cases is 0. -/
theorem rt_singleton_out_of_bounds :
    (∀ c : ℚ, c ≠ 0 → calculate_rt [c] = none) ∧
    (∀ ns : List ℚ, ns ≠ [] →
      (2 ≤ ns.length ∨ ns.headD 0 = 0) → (calculate_rt ns).isSome = true) := by
  constructor
  · intro c hc
    unfold calculate_rt
    rw [if_neg (by simp), if_pos (by simpa using hc)]
    rfl
  · intro ns hne hcond
    cases ns with
    | nil => exact absurd rfl hne
    | cons h0 t0 =>
      by_cases hh : h0 = 0
      · unfold calculate_rt
        rw [if_neg (by simp), if_neg (by simpa using hh)]
        rfl
      · have hlen : 2 ≤ (h0 :: t0).length := by
          rcases hcond with h | h
          · exact h
          · exact absurd (by simpa using h) hh
        have hlen2 : 2 ≤ (rtStep2 (rtStep1 (h0 :: t0))).length := by
          rw [rtStep2_length, rtStep1_length]
          exact hlen
        unfold calculate_rt
        rw [if_neg (by simp), if_pos (by simpa using hh)]
        rcases Option.isSome_iff_exists.mp
          (setFirstFromSecond_isSome _ hlen2) with ⟨l', hl'⟩
        rw [hl']
        rfl

/-- C10 witness: the singleton group [5] fails and the groups [0] (first
entry zero) succeeds. -/
theorem rt_singleton_out_of_bounds_witness :
    calculate_rt [(5 : ℚ)] = none ∧
      (calculate_rt [(0 : ℚ)]).isSome = true :=
  ⟨rt_singleton_out_of_bounds.1 5 (by norm_num),
   rt_singleton_out_of_bounds.2 [0] (by simp) (Or.inr rfl)⟩

/-- C2: within a non-negative new_cases sequence, the value computed for
position i+1 before the edge-case fills is the float ratio
new_cases[i+1] / new_cases[i]; that ratio is infinite exactly when the
denominator is zero and the numerator nonzero; the infinite-ratio
replacement takes the value computed at position i+2 (the next record's
ratio, forward-looking) and otherwise keeps the ratio; and the final rt at
position i+1 is that replaced value after null-filling. -/
theorem rt_ratio_forward_fill (ns : List ℚ) (rt : List RtVal)
    (hpos : ∀ x ∈ ns, 0 ≤ x) (hrt : calculate_rt ns = some rt)
    (i : ℕ) (hi : i + 1 < ns.length) :
    (rtStep1 ns).getD (i + 1) RtVal.nan =
      npDiv (ns.getD (i + 1) 0) (ns.getD i 0) ∧
    (npDiv (ns.getD (i + 1) 0) (ns.getD i 0) = RtVal.inf ↔
      ns.getD i 0 = 0 ∧ ns.getD (i + 1) 0 ≠ 0) ∧
    (rtStep2 (rtStep1 ns)).getD (i + 1) RtVal.nan =
      (if npDiv (ns.getD (i + 1) 0) (ns.getD i 0) = RtVal.inf
       then (rtStep1 ns).getD (i + 2) RtVal.nan
       else npDiv (ns.getD (i + 1) 0) (ns.getD i 0)) ∧
    (i + 2 < ns.length →
      (rtStep1 ns).getD (i + 2) RtVal.nan =
        npDiv (ns.getD (i + 2) 0) (ns.getD (i + 1) 0)) ∧
    rt.getD (i + 1) (RtVal.val 0) =
      fillZero ((rtStep2 (rtStep1 ns)).getD (i + 1) RtVal.nan) := by
  refine ⟨rtStep1_getD_succ ns i hi, ?_, ?_, ?_, ?_⟩
  · rw [npDiv_eq_inf]
    constructor
    · rintro ⟨h1, h2⟩
      exact ⟨h1, h2.ne'⟩
    · rintro ⟨h1, h2⟩
      exact ⟨h1, lt_of_le_of_ne (nonneg_getD ns hpos (i + 1)) (Ne.symm h2)⟩
  · rw [rtStep2_getD _ _ (by rw [rtStep1_length]; exact hi),
      rtStep1_getD_succ ns i hi]
  · intro h2
    exact rtStep1_getD_succ ns (i + 1) h2
  · obtain ⟨hne, hcase⟩ := calculate_rt_some ns rt hrt
    rcases hcase with ⟨_, hrt'⟩ | ⟨_, a, b, t, hr2, hrt'⟩
    · subst hrt'
      exact fillna0_getD _ _
    · subst hrt'
      rw [fillna0_getD, hr2]
      rfl

/-- C2 witness: the forward-fill characterization instantiated at the
sequence [0, 100, 50] and position 1. -/
theorem rt_ratio_forward_fill_witness :
    (rtStep1 [(0 : ℚ), 100, 50]).getD 1 RtVal.nan =
      npDiv ([(0 : ℚ), 100, 50].getD 1 0) ([(0 : ℚ), 100, 50].getD 0 0) ∧
    (npDiv ([(0 : ℚ), 100, 50].getD 1 0) ([(0 : ℚ), 100, 50].getD 0 0) =
        RtVal.inf ↔
      [(0 : ℚ), 100, 50].getD 0 0 = 0 ∧ [(0 : ℚ), 100, 50].getD 1 0 ≠ 0) ∧
    (rtStep2 (rtStep1 [(0 : ℚ), 100, 50])).getD 1 RtVal.nan =
      (if npDiv ([(0 : ℚ), 100, 50].getD 1 0) ([(0 : ℚ), 100, 50].getD 0 0) =
          RtVal.inf
       then (rtStep1 [(0 : ℚ), 100, 50]).getD 2 RtVal.nan
       else npDiv ([(0 : ℚ), 100, 50].getD 1 0) ([(0 : ℚ), 100, 50].getD 0 0)) ∧
    (2 < [(0 : ℚ), 100, 50].length →
      (rtStep1 [(0 : ℚ), 100, 50]).getD 2 RtVal.nan =
        npDiv ([(0 : ℚ), 100, 50].getD 2 0) ([(0 : ℚ), 100, 50].getD 1 0)) ∧
    [RtVal.val 0, RtVal.val (1 / 2), RtVal.val (1 / 2)].getD 1 (RtVal.val 0) =
      fillZero ((rtStep2 (rtStep1 [(0 : ℚ), 100, 50])).getD 1 RtVal.nan) :=
  rt_ratio_forward_fill [0, 100, 50]
    [RtVal.val 0, RtVal.val (1 / 2), RtVal.val (1 / 2)]
    (by with_unfolding_all decide) (by with_unfolding_all decide) 0
    (by norm_num)

/-- C3: for every group on which calculate_rt completes, the first rt value
is the value at position 1 after the infinite-ratio replacement when the
first new_cases entry is nonzero (and then also equals the final rt at
position 1), and is left to the general null-fill, hence 0, when the first
new_cases entry is 0. -/
theorem rt_first_record (ns : List ℚ) (rt : List RtVal)
    (hrt : calculate_rt ns = some rt) :
    (ns.headD 0 ≠ 0 →
      rt.getD 0 (RtVal.val 0) = (rtStep2 (rtStep1 ns)).getD 1 RtVal.nan ∧
      rt.getD 0 (RtVal.val 0) = rt.getD 1 (RtVal.val 0)) ∧
    (ns.headD 0 = 0 → rt.getD 0 (RtVal.val 0) = RtVal.val 0) := by
  obtain ⟨hne, hcase⟩ := calculate_rt_some ns rt hrt
  constructor
  · intro hh
    rcases hcase with ⟨h0, _⟩ | ⟨h0, a, b, t, hr2, hrt'⟩
    · exact absurd h0 hh
    · have hlen : 2 ≤ ns.length := by
        have hl := congrArg List.length hr2
        rw [rtStep2_length, rtStep1_length] at hl
        simp at hl
        omega
      have hb : (rtStep2 (rtStep1 ns)).getD 1 RtVal.nan = b := by
        rw [hr2]
        rfl
      have hs1 : (rtStep1 ns).getD 1 RtVal.nan =
          npDiv (ns.getD 1 0) (ns.getD 0 0) :=
        rtStep1_getD_succ ns 0 (by omega)
      have hden : ns.getD 0 0 ≠ 0 := by
        rw [headD_eq_getD_zero ns hne]
        exact hh
      have hval : (rtStep1 ns).getD 1 RtVal.nan =
          RtVal.val (ns.getD 1 0 / ns.getD 0 0) := by
        rw [hs1]
        unfold npDiv
        rw [if_neg hden]
      have hr2g : (rtStep2 (rtStep1 ns)).getD 1 RtVal.nan =
          (rtStep1 ns).getD 1 RtVal.nan := by
        rw [rtStep2_getD _ _ (by rw [rtStep1_length]; omega),
          if_neg (by rw [hval]; simp)]
      have hbval : b = RtVal.val (ns.getD 1 0 / ns.getD 0 0) := by
        rw [← hb, hr2g, hval]
      subst hrt'
      constructor
      · rw [fillna0_getD, hb, List.getD_cons_zero, hbval]
        simp [fillZero]
      · rw [fillna0_getD, fillna0_getD]
        rfl
  · intro hh
    rcases hcase with ⟨h0, hrt'⟩ | ⟨h0, _⟩
    · subst hrt'
      rw [fillna0_getD]
      have h0lt : 0 < ns.length := List.length_pos.mpr hne
      rw [rtStep2_getD _ _ (by rw [rtStep1_length]; exact h0lt),
        rtStep1_getD_zero ns h0lt]
      simp [fillZero]
    · exact absurd hh h0

/-- C3 witness: the first-record rule instantiated at the sequence
[100, 50], whose rt output is [1/2, 1/2]. -/
theorem rt_first_record_witness :
    (([(100 : ℚ), 50].headD 0 ≠ 0 →
      [RtVal.val (1 / 2), RtVal.val (1 / 2)].getD 0 (RtVal.val 0) =
        (rtStep2 (rtStep1 [(100 : ℚ), 50])).getD 1 RtVal.nan ∧
      [RtVal.val (1 / 2), RtVal.val (1 / 2)].getD 0 (RtVal.val 0) =
        [RtVal.val (1 / 2), RtVal.val (1 / 2)].getD 1 (RtVal.val 0)) ∧
    ([(100 : ℚ), 50].headD 0 = 0 →
      [RtVal.val (1 / 2), RtVal.val (1 / 2)].getD 0 (RtVal.val 0) =
        RtVal.val 0)) :=
  rt_first_record [100, 50] [RtVal.val (1 / 2), RtVal.val (1 / 2)]
    (by with_unfolding_all decide)

/-- C5: on every non-negative group for which calculate_rt completes, the rt
column has the same length as the new_cases column and every rt value is a
defined, non-negative rational (no null remains; every NaN has been filled
with 0). -/
theorem rt_defined_everywhere (ns : List ℚ) (rt : List RtVal)
    (hpos : ∀ x ∈ ns, 0 ≤ x) (hrt : calculate_rt ns = some rt) :
    rt.length = ns.length ∧
    ∀ v ∈ rt, ∃ q : ℚ, v = RtVal.val q ∧ 0 ≤ q := by
  obtain ⟨hne, hcase⟩ := calculate_rt_some ns rt hrt
  rcases hcase with ⟨_, hrt'⟩ | ⟨_, a, b, t, hr2, hrt'⟩
  · subst hrt'
    constructor
    · rw [fillna0_length, rtStep2_length, rtStep1_length]
    · intro v hv
      obtain ⟨w, hw, rfl⟩ := List.mem_map.mp hv
      obtain ⟨j, hj⟩ := mem_step2 ns w hw
      rw [hj]
      exact fillZero_ok _ (step2_ok ns hpos j)
  · subst hrt'
    have hlen2 := congrArg List.length hr2
    rw [rtStep2_length, rtStep1_length] at hlen2
    constructor
    · rw [fillna0_length]
      simp at hlen2 ⊢
      omega
    · intro v hv
      obtain ⟨w, hw, rfl⟩ := List.mem_map.mp hv
      have hw' : w ∈ rtStep2 (rtStep1 ns) := by
        rw [hr2]
        rcases List.mem_cons.mp hw with rfl | hw2
        · exact List.mem_cons_of_mem a (List.mem_cons_self w _)
        · exact List.mem_cons_of_mem a hw2
      obtain ⟨j, hj⟩ := mem_step2 ns w hw'
      rw [hj]
      exact fillZero_ok _ (step2_ok ns hpos j)

/-- C5 witness: the totality and non-negativity of rt instantiated at the
sequence [0, 100, 50], whose rt output is [0, 1/2, 1/2]. -/
theorem rt_defined_everywhere_witness :
    ([RtVal.val 0, RtVal.val (1 / 2), RtVal.val (1 / 2)] : List RtVal).length =
      [(0 : ℚ), 100, 50].length ∧
    ∀ v ∈ ([RtVal.val 0, RtVal.val (1 / 2), RtVal.val (1 / 2)] : List RtVal),
      ∃ q : ℚ, v = RtVal.val q ∧ 0 ≤ q :=
  rt_defined_everywhere [0, 100, 50]
    [RtVal.val 0, RtVal.val (1 / 2), RtVal.val (1 / 2)]
    (by with_unfolding_all decide) (by with_unfolding_all decide)

/-- C6: every row of the region-level table gives, for each of new_cases,
cumulative_cases, new_deaths, cumulative_deaths and population, the sum of
that field over all member-country records of that region at that date in
the enriched country-level table. -/
theorem regional_additivity (t : List CountryRecord) (r : RegionRecord)
    (hr : r ∈ create_regional_df t) :
    r.new_cases = groupSum t r.who_region r.date (fun x => x.new_cases) ∧
    r.cumulative_cases =
      groupSum t r.who_region r.date (fun x => x.cumulative_cases) ∧
    r.new_deaths = groupSum t r.who_region r.date (fun x => x.new_deaths) ∧
    r.cumulative_deaths =
      groupSum t r.who_region r.date (fun x => x.cumulative_deaths) ∧
    r.population = groupSum t r.who_region r.date (fun x => x.population) := by
  obtain ⟨k, _, rfl⟩ := List.mem_map.mp hr
  exact ⟨rfl, rfl, rfl, rfl, rfl⟩

/-- C6 witness: additivity instantiated on a two-country table whose rows
share region EURO and date 3; the aggregated row is their field-wise sum. -/
theorem regional_additivity_witness :
    ((11 : ℚ) =
      groupSum
        [⟨"A", "EURO", 3, 1, 2, 3, 4, 5⟩, ⟨"B", "EURO", 3, 10, 20, 30, 40, 50⟩]
        "EURO" 3 (fun x => x.new_cases) ∧
    (22 : ℚ) =
      groupSum
        [⟨"A", "EURO", 3, 1, 2, 3, 4, 5⟩, ⟨"B", "EURO", 3, 10, 20, 30, 40, 50⟩]
        "EURO" 3 (fun x => x.cumulative_cases) ∧
    (33 : ℚ) =
      groupSum
        [⟨"A", "EURO", 3, 1, 2, 3, 4, 5⟩, ⟨"B", "EURO", 3, 10, 20, 30, 40, 50⟩]
        "EURO" 3 (fun x => x.new_deaths) ∧
    (44 : ℚ) =
      groupSum
        [⟨"A", "EURO", 3, 1, 2, 3, 4, 5⟩, ⟨"B", "EURO", 3, 10, 20, 30, 40, 50⟩]
        "EURO" 3 (fun x => x.cumulative_deaths) ∧
    (55 : ℚ) =
      groupSum
        [⟨"A", "EURO", 3, 1, 2, 3, 4, 5⟩, ⟨"B", "EURO", 3, 10, 20, 30, 40, 50⟩]
        "EURO" 3 (fun x => x.population)) :=
  regional_additivity
    [⟨"A", "EURO", 3, 1, 2, 3, 4, 5⟩, ⟨"B", "EURO", 3, 10, 20, 30, 40, 50⟩]
    ⟨"EURO", 3, 11, 22, 33, 44, 55⟩ (by with_unfolding_all decide)

/-- C7: the normalized sibling of every input row has each of the four count
fields equal to value / population * 1000000, and a row whose population is
1000000 keeps its four count fields numerically unchanged. -/
theorem normalize_rescales (t : List StatRecord) (r : StatRecord)
    (hr : r ∈ t) (hpop : 0 < r.population) :
    normalizeRecord r ∈ normalize t ∧
    (normalizeRecord r).new_cases = r.new_cases / r.population * 1000000 ∧
    (normalizeRecord r).cumulative_cases =
      r.cumulative_cases / r.population * 1000000 ∧
    (normalizeRecord r).new_deaths = r.new_deaths / r.population * 1000000 ∧
    (normalizeRecord r).cumulative_deaths =
      r.cumulative_deaths / r.population * 1000000 ∧
    (r.population = 1000000 →
      (normalizeRecord r).new_cases = r.new_cases ∧
      (normalizeRecord r).cumulative_cases = r.cumulative_cases ∧
      (normalizeRecord r).new_deaths = r.new_deaths ∧
      (normalizeRecord r).cumulative_deaths = r.cumulative_deaths) := by
  refine ⟨List.mem_map_of_mem _ hr, rfl, rfl, rfl, rfl, ?_⟩
  intro hp
  have h6 : (1000000 : ℚ) ≠ 0 := by norm_num
  refine ⟨?_, ?_, ?_, ?_⟩ <;>
    · show _ / r.population * 1000000 = _
      rw [hp]
      exact div_mul_cancel₀ _ h6

/-- C7 witness: normalization instantiated on a one-row table whose
population is exactly 1000000, so its count fields are unchanged. -/
theorem normalize_rescales_witness :
    normalizeRecord ⟨"CH", 0, 7, 8, 9, 10, 1000000, RtVal.val 0, RtVal.val 0⟩ ∈
      normalize [⟨"CH", 0, 7, 8, 9, 10, 1000000, RtVal.val 0, RtVal.val 0⟩] ∧
    (normalizeRecord
        ⟨"CH", 0, 7, 8, 9, 10, 1000000, RtVal.val 0, RtVal.val 0⟩).new_cases =
      (7 : ℚ) / 1000000 * 1000000 ∧
    (normalizeRecord
        ⟨"CH", 0, 7, 8, 9, 10, 1000000, RtVal.val 0,
          RtVal.val 0⟩).cumulative_cases =
      (8 : ℚ) / 1000000 * 1000000 ∧
    (normalizeRecord
        ⟨"CH", 0, 7, 8, 9, 10, 1000000, RtVal.val 0, RtVal.val 0⟩).new_deaths =
      (9 : ℚ) / 1000000 * 1000000 ∧
    (normalizeRecord
        ⟨"CH", 0, 7, 8, 9, 10, 1000000, RtVal.val 0,
          RtVal.val 0⟩).cumulative_deaths =
      (10 : ℚ) / 1000000 * 1000000 ∧
    ((1000000 : ℚ) = 1000000 →
      (normalizeRecord
          ⟨"CH", 0, 7, 8, 9, 10, 1000000, RtVal.val 0,
            RtVal.val 0⟩).new_cases = (7 : ℚ) ∧
      (normalizeRecord
          ⟨"CH", 0, 7, 8, 9, 10, 1000000, RtVal.val 0,
            RtVal.val 0⟩).cumulative_cases = (8 : ℚ) ∧
      (normalizeRecord
          ⟨"CH", 0, 7, 8, 9, 10, 1000000, RtVal.val 0,
            RtVal.val 0⟩).new_deaths = (9 : ℚ) ∧
      (normalizeRecord
          ⟨"CH", 0, 7, 8, 9, 10, 1000000, RtVal.val 0,
            RtVal.val 0⟩).cumulative_deaths = (10 : ℚ)) :=
  normalize_rescales [⟨"CH", 0, 7, 8, 9, 10, 1000000, RtVal.val 0, RtVal.val 0⟩]
    ⟨"CH", 0, 7, 8, 9, 10, 1000000, RtVal.val 0, RtVal.val 0⟩
    (List.mem_singleton.mpr rfl) (by norm_num)

/-- C8: normalization is per-row and touches only the four count fields: the
output table has the same length, and every row keeps its entity name, date,
population, rt and deaths_per_cases values; the input table itself is not
modified (the source copies it, and here normalize is a pure function of the
input list). -/
theorem normalize_frame (t : List StatRecord) (i : ℕ) (hi : i < t.length) :
    (normalize t).length = t.length ∧
    ((normalize t).getD i default).entity = (t.getD i default).entity ∧
    ((normalize t).getD i default).date = (t.getD i default).date ∧
    ((normalize t).getD i default).population =
      (t.getD i default).population ∧
    ((normalize t).getD i default).rt = (t.getD i default).rt ∧
    ((normalize t).getD i default).deaths_per_cases =
      (t.getD i default).deaths_per_cases := by
  have hlen : (normalize t).length = t.length := List.length_map _ _
  have hi' : i < (normalize t).length := by
    rw [hlen]
    exact hi
  have hget : (normalize t).getD i default = normalizeRecord (t.getD i default) := by
    rw [List.getD_eq_getElem _ _ hi', List.getD_eq_getElem _ _ hi]
    simp [normalize]
  exact ⟨hlen, by rw [hget]; rfl, by rw [hget]; rfl, by rw [hget]; rfl,
    by rw [hget]; rfl, by rw [hget]; rfl⟩

/-- C8 witness: the frame property instantiated on a one-row table. -/
theorem normalize_frame_witness :
    (normalize [⟨"CH", 4, 7, 8, 9, 10, 20, RtVal.val 3, RtVal.inf⟩]).length =
      ([⟨"CH", 4, 7, 8, 9, 10, 20, RtVal.val 3, RtVal.inf⟩] :
        List StatRecord).length ∧
    ((normalize
        [⟨"CH", 4, 7, 8, 9, 10, 20, RtVal.val 3, RtVal.inf⟩]).getD 0
          default).entity =
      (([⟨"CH", 4, 7, 8, 9, 10, 20, RtVal.val 3, RtVal.inf⟩] :
        List StatRecord).getD 0 default).entity ∧
    ((normalize
        [⟨"CH", 4, 7, 8, 9, 10, 20, RtVal.val 3, RtVal.inf⟩]).getD 0
          default).date =
      (([⟨"CH", 4, 7, 8, 9, 10, 20, RtVal.val 3, RtVal.inf⟩] :
        List StatRecord).getD 0 default).date ∧
    ((normalize
        [⟨"CH", 4, 7, 8, 9, 10, 20, RtVal.val 3, RtVal.inf⟩]).getD 0
          default).population =
      (([⟨"CH", 4, 7, 8, 9, 10, 20, RtVal.val 3, RtVal.inf⟩] :
        List StatRecord).getD 0 default).population ∧
    ((normalize
        [⟨"CH", 4, 7, 8, 9, 10, 20, RtVal.val 3, RtVal.inf⟩]).getD 0
          default).rt =
      (([⟨"CH", 4, 7, 8, 9, 10, 20, RtVal.val 3, RtVal.inf⟩] :
        List StatRecord).getD 0 default).rt ∧
    ((normalize
        [⟨"CH", 4, 7, 8, 9, 10, 20, RtVal.val 3, RtVal.inf⟩]).getD 0
          default).deaths_per_cases =
      (([⟨"CH", 4, 7, 8, 9, 10, 20, RtVal.val 3, RtVal.inf⟩] :
        List StatRecord).getD 0 default).deaths_per_cases :=
  normalize_frame [⟨"CH", 4, 7, 8, 9, 10, 20, RtVal.val 3, RtVal.inf⟩] 0
    (by simp)

end Covid
